import Mathlib

/-!
Formal model of the psiflow sampling utilities module
(src/psiflow/sampling/utils.py): strain algebra, the safety-checked
force field wrapper, the ASE and PLUMED force parts, the trajectory
hooks and the yaff log parser.

Numerics are modelled over the exact reals; numpy floating point is
idealised as exact arithmetic except where IEEE NaN behaviour is the
point of a claim, in which case an Option-valued float model tracks
NaN explicitly.  External libraries (numpy eigendecomposition, the ASE
calculator, the PLUMED engine, the yaff integrator) are modelled as
parameters or capability structures at the boundary, exactly as the
module uses them.
-/

open Matrix

namespace PsiflowUtils

/-- molmod.units.electronvolt: one electronvolt in atomic units
(molmod defines it as 1.6021765653e-19 joule with
joule = 1/4.35974434e-18). -/
noncomputable def electronvolt : ℝ := 1.6021765653e-19 / 4.35974434e-18

/-- molmod.units.angstrom: one angstrom in atomic units (Bohr radii),
1e-10 meter with meter = 1/0.5291772083e-10. -/
noncomputable def angstrom : ℝ := 1e-10 / 0.5291772083e-10

/-- 3x3 real matrix, the box / strain / virial tensor type. -/
abbrev Mat3 := Matrix (Fin 3) (Fin 3) ℝ

/-- Python exceptions that the modelled functions can raise. -/
inductive PyExc
  | assertionError
  | linAlgError
  | indexError
  | valueError
  deriving DecidableEq, Repr

/-! ## Strain algebra (utils.py lines 181-227)

`apply_strain(strain, box0)` asserts `np.allclose(strain, strain.T)`
(modelled with its default tolerance band, `np_allclose`), forms
`A = 2*strain + eye(3)`, diagonalises it with `np.linalg.eigh` and
returns `box0 @ (vectors @ np.sqrt(np.diag(values)) @ vectors.T)`.
The eigendecomposition is performed by LAPACK, outside this module;
the model is therefore parametrised by its output `(values, vectors)`
= `(lam, V)`, and the theorems constrain `(lam, V)` by the defining
equations of a symmetric eigendecomposition.  `np.sqrt` is modelled by
`Real.sqrt` here (exact on nonnegative input); the NaN-tracking
refinement for negative input is `applyStrainFloat` below. -/

/-- `np.allclose(a, b)` with the default tolerances: every entry
satisfies `|a - b| <= atol + rtol * |b|` with atol = 1e-8 and
rtol = 1e-5.  Note this is a tolerance band, not exact equality: it
accepts matrices whose asymmetry is below the tolerance. -/
def np_allclose (a b : Mat3) : Prop :=
  ∀ i j, |a i j - b i j| ≤ 1e-8 + 1e-5 * |b i j|

/-- Exactly equal matrices pass np.allclose. -/
theorem np_allclose_of_eq {a b : Mat3} (h : a = b) : np_allclose a b := by
  subst h
  intro i j
  rw [sub_self, abs_zero]
  positivity

/-- apply_strain (utils.py 181-206), parametrised by the
eigendecomposition output of `np.linalg.eigh(2*strain + eye(3))`.
The failed `assert np.allclose(strain, strain.T)` raises
AssertionError; within the allclose tolerance band a (possibly
slightly non-symmetric) strain is accepted. -/
noncomputable def apply_strain (strain box0 V : Mat3) (lam : Fin 3 → ℝ) :
    Except PyExc Mat3 :=
  letI : Decidable (np_allclose strain strainᵀ) := Classical.propDecidable _
  if np_allclose strain strainᵀ then
    .ok (box0 * (V * Matrix.diagonal (fun i => Real.sqrt (lam i)) * Vᵀ))
  else
    .error .assertionError

/-- compute_strain (utils.py 209-227):
`0.5 * (inv(box0) @ box @ box.T @ inv(box0).T - eye(3))`.
`np.linalg.inv` raises LinAlgError on a singular matrix, which over
exact reals is `box0.det = 0`. -/
noncomputable def compute_strain (box box0 : Mat3) : Except PyExc Mat3 :=
  if box0.det = 0 then
    .error .linAlgError
  else
    .ok ((0.5 : ℝ) • (box0⁻¹ * box * boxᵀ * (box0⁻¹)ᵀ - 1))

/-- C2: for every symmetric strain s whose matrix 2s+I admits an
eigendecomposition with nonnegative eigenvalues (in particular
whenever 2s+I is positive-definite) and every invertible reference box
box0, feeding the box produced by apply_strain back into
compute_strain recovers s exactly (the floating round-trip law, exact
over the real-number idealisation). -/
theorem compute_strain_apply_strain_round_trip
    (s box0 V : Mat3) (lam : Fin 3 → ℝ)
    (hsym : s = sᵀ)
    (horth : Vᵀ * V = 1)
    (hdecomp : V * Matrix.diagonal lam * Vᵀ = (2 : ℝ) • s + 1)
    (hpos : ∀ i, 0 ≤ lam i)
    (hdet : box0.det ≠ 0) :
    (apply_strain s box0 V lam).bind (fun box => compute_strain box box0) =
      .ok s := by
  have hbox0 : IsUnit box0.det := isUnit_iff_ne_zero.mpr hdet
  set D : Mat3 := Matrix.diagonal (fun i => Real.sqrt (lam i)) with hD
  have hDD : D * D = Matrix.diagonal lam := by
    rw [hD, Matrix.diagonal_mul_diagonal]
    have hfun : (fun i => Real.sqrt (lam i) * Real.sqrt (lam i)) = lam :=
      funext fun i => Real.mul_self_sqrt (hpos i)
    rw [hfun]
  set R : Mat3 := V * D * Vᵀ with hR
  have hRt : Rᵀ = R := by
    rw [hR, Matrix.transpose_mul, Matrix.transpose_mul, Matrix.transpose_transpose,
      hD, Matrix.diagonal_transpose, Matrix.mul_assoc]
  have hRR : R * R = (2 : ℝ) • s + 1 := by
    calc R * R = V * (D * (Vᵀ * (V * (D * Vᵀ)))) := by
          rw [hR]; simp only [Matrix.mul_assoc]
      _ = V * (D * (D * Vᵀ)) := by
          rw [← Matrix.mul_assoc Vᵀ V (D * Vᵀ), horth, Matrix.one_mul]
      _ = V * Matrix.diagonal lam * Vᵀ := by
          rw [← Matrix.mul_assoc D D Vᵀ, hDD, Matrix.mul_assoc]
      _ = (2 : ℝ) • s + 1 := hdecomp
  have hstep : (apply_strain s box0 V lam).bind
      (fun box => compute_strain box box0) = compute_strain (box0 * R) box0 := by
    rw [apply_strain, if_pos (np_allclose_of_eq hsym)]
    rfl
  rw [hstep, compute_strain, if_neg hdet]
  have h1 : box0⁻¹ * (box0 * R) = R := by
    rw [← Matrix.mul_assoc, Matrix.nonsing_inv_mul box0 hbox0, Matrix.one_mul]
  have h3 : box0ᵀ * (box0⁻¹)ᵀ = 1 := by
    rw [← Matrix.transpose_mul, Matrix.nonsing_inv_mul box0 hbox0, Matrix.transpose_one]
  have h4 : box0⁻¹ * (box0 * R) * (box0 * R)ᵀ * (box0⁻¹)ᵀ = (2 : ℝ) • s + 1 := by
    rw [h1, Matrix.transpose_mul, ← Matrix.mul_assoc, Matrix.mul_assoc (R * Rᵀ) box0ᵀ,
      h3, Matrix.mul_one, hRt, hRR]
  rw [h4]
  congr 1
  rw [add_sub_cancel_right, smul_smul]
  norm_num

/-- Witness for C2 at strain 0, reference box I, eigendecomposition
(V, lam) = (I, (1,1,1)). -/
theorem compute_strain_apply_strain_round_trip_witness :
    (apply_strain 0 1 1 (fun _ => 1)).bind (fun box => compute_strain box 1) =
      .ok 0 := by
  have h := compute_strain_apply_strain_round_trip 0 1 1 (fun _ => 1)
    (by simp)
    (by simp)
    (by simp [Matrix.diagonal_one])
    (fun i => zero_le_one)
    (by simp)
  exact h

/-- True when an Except value is a normal return (no exception). -/
def isOkE {ε α : Type _} : Except ε α → Bool
  | .ok _ => true
  | .error _ => false

/-- C9 counterexample: the matrix with a single off-diagonal entry
1e-9 is non-symmetric, yet its asymmetry sits inside the np.allclose
tolerance band (atol 1e-8), so the assert passes and apply_strain
completes normally instead of failing with a fatal input error. -/
theorem strain_allclose_tolerance_counterexample :
    ¬ (!![0, 1e-9, 0; 0, 0, 0; 0, 0, 0] : Mat3) =
        (!![0, 1e-9, 0; 0, 0, 0; 0, 0, 0] : Mat3)ᵀ ∧
      isOkE (apply_strain !![0, 1e-9, 0; 0, 0, 0; 0, 0, 0] 1 1 (fun _ => 1)) =
        true := by
  constructor
  · intro h
    have h01 := congrFun (congrFun h 0) 1
    simp [Matrix.transpose_apply] at h01
    norm_num at h01
  · have hclose : np_allclose !![0, 1e-9, 0; 0, 0, 0; 0, 0, 0]
        (!![0, 1e-9, 0; 0, 0, 0; 0, 0, 0] : Mat3)ᵀ := by
      intro i j
      fin_cases i <;> fin_cases j <;>
        simp [Matrix.transpose_apply, Matrix.vecHead, Matrix.vecTail, abs_le] <;>
        norm_num [abs_of_nonneg]
    rw [apply_strain, if_pos hclose]
    rfl

/-- C9 amended: apply_strain rejects a strain only when its asymmetry
exceeds the np.allclose tolerance band (some entry with
|s i j - s j i| > 1e-8 + 1e-5 * |s j i|), raising an AssertionError
there and completing normally within the band; compute_strain rejects
a singular reference box with a LinAlgError. -/
theorem strain_input_rejection_allclose
    (s box0 V box b0 : Mat3) (lam : Fin 3 → ℝ) (h2 : b0.det = 0) :
    (¬ np_allclose s sᵀ →
        apply_strain s box0 V lam = .error .assertionError) ∧
      (np_allclose s sᵀ → isOkE (apply_strain s box0 V lam) = true) ∧
      compute_strain box b0 = .error .linAlgError := by
  refine ⟨fun h1 => ?_, fun h1 => ?_, ?_⟩
  · rw [apply_strain, if_neg h1]
  · rw [apply_strain, if_pos h1]
    rfl
  · rw [compute_strain, if_pos h2]

/-- Witness for the amended C9: a strain with off-diagonal asymmetry 1
(far beyond the tolerance) is rejected, and the zero reference box is
rejected as singular. -/
theorem strain_input_rejection_allclose_witness :
    apply_strain !![0,1,0;0,0,0;0,0,0] 1 1 (fun _ => 0) =
        .error .assertionError ∧
      compute_strain 1 0 = .error .linAlgError := by
  have h := strain_input_rejection_allclose !![0,1,0;0,0,0;0,0,0] 1 1 1 0
    (fun _ => 0) (Matrix.det_zero ⟨0⟩)
  refine ⟨h.1 ?_, h.2.2⟩
  intro hclose
  have h01 := hclose 0 1
  simp [Matrix.transpose_apply] at h01
  norm_num at h01

/-! ## NaN-tracking refinement of apply_strain (for claim C5)

`np.sqrt` of a negative float is IEEE NaN (numpy emits a RuntimeWarning
but raises no exception), and NaN propagates through every subsequent
product and sum.  `Flt` models a float as `Option ℝ` with `none` = NaN,
with multiplication and addition absorbing `none` exactly as IEEE NaN
absorbs (NaN * 0 = NaN, NaN + x = NaN). -/

/-- A float value: `none` models IEEE NaN. -/
abbrev Flt := Option ℝ

/-- Float multiplication; NaN absorbs. -/
def fmul (a b : Flt) : Flt := a.bind fun x => b.map fun y => x * y

/-- Float addition; NaN absorbs. -/
def fadd (a b : Flt) : Flt := a.bind fun x => b.map fun y => x + y

/-- 3x3 matrix of floats with NaN tracked. -/
abbrev FMat3 := Fin 3 → Fin 3 → Flt

/-- Inject an exact real matrix into the float model. -/
def toF (M : Mat3) : FMat3 := fun i j => some (M i j)

/-- 3x3 float matrix product, entrywise
`(A @ B) i j = sum k, A i k * B k j`. -/
def fmatMul (A B : FMat3) : FMat3 := fun i j =>
  fadd (fadd (fmul (A i 0) (B 0 j)) (fmul (A i 1) (B 1 j))) (fmul (A i 2) (B 2 j))

/-- np.sqrt on one float: NaN on negative input, exact square root
otherwise. -/
noncomputable def npSqrtF (x : ℝ) : Flt :=
  if x < 0 then none else some (Real.sqrt x)

/-- `np.sqrt(np.diag(values))` in apply_strain: elementwise sqrt of
the diagonal matrix built from the eigenvalues. -/
noncomputable def sqrtDiagF (lam : Fin 3 → ℝ) : FMat3 := fun i j =>
  npSqrtF (Matrix.diagonal lam i j)

/-- apply_strain (utils.py 181-206) with numpy NaN semantics for
`np.sqrt` tracked: the only exception point is the symmetry assert;
`box0 @ ((vectors @ np.sqrt(np.diag(values))) @ vectors.T)` is
computed in the NaN-propagating float model. -/
noncomputable def applyStrainFloat (strain box0 V : Mat3) (lam : Fin 3 → ℝ) :
    Except PyExc FMat3 :=
  letI : Decidable (np_allclose strain strainᵀ) := Classical.propDecidable _
  if np_allclose strain strainᵀ then
    .ok (fmatMul (toF box0) (fmatMul (fmatMul (toF V) (sqrtDiagF lam)) (toF Vᵀ)))
  else
    .error .assertionError

theorem fmul_none_right (a : Flt) : fmul a none = none := by
  cases a <;> rfl

theorem fmul_none_left (a : Flt) : fmul none a = none := rfl

theorem fadd_none_right (a : Flt) : fadd a none = none := by
  cases a <;> rfl

theorem fadd_none_left (a : Flt) : fadd none a = none := rfl

/-- A three-term float sum with a NaN summand is NaN. -/
theorem fsum3_none (a b c : Flt) (h : a = none ∨ b = none ∨ c = none) :
    fadd (fadd a b) c = none := by
  rcases h with h | h | h <;> subst h <;>
    simp [fadd, fadd_none_left, fadd_none_right]

/-- If any of the three summands of a float matrix product entry is
NaN, the entry is NaN. -/
theorem fmatMul_entry_none (A B : FMat3) (i j : Fin 3) (k : Fin 3)
    (h : fmul (A i k) (B k j) = none) : fmatMul A B i j = none := by
  have hk : k = 0 ∨ k = 1 ∨ k = 2 := by
    fin_cases k
    · exact Or.inl rfl
    · exact Or.inr (Or.inl rfl)
    · exact Or.inr (Or.inr rfl)
  rcases hk with hk | hk | hk <;> subst hk
  · exact fsum3_none _ _ _ (Or.inl h)
  · exact fsum3_none _ _ _ (Or.inr (Or.inl h))
  · exact fsum3_none _ _ _ (Or.inr (Or.inr h))

/-- C5 counterexample: for the symmetric strain diag(-1,0,0)
(so 2s+I = diag(-1,1,1) has eigenvalue -1, exhibited by the valid
eigendecomposition (V, lam) = (I, (-1,1,1))), apply_strain does NOT
fail the call: it returns normally (np.sqrt merely produces NaN). -/
theorem apply_strain_negative_eigenvalue_counterexample :
    ((1 : Mat3) * Matrix.diagonal ![(-1 : ℝ), 1, 1] * (1 : Mat3)ᵀ =
        (2 : ℝ) • Matrix.diagonal ![(-1 : ℝ), 0, 0] + 1) ∧
      (![(-1 : ℝ), 1, 1] 0 < 0) ∧
      isOkE (applyStrainFloat (Matrix.diagonal ![(-1 : ℝ), 0, 0]) 1 1
          ![(-1 : ℝ), 1, 1]) = true := by
  refine ⟨?_, ?_, ?_⟩
  · rw [Matrix.transpose_one, Matrix.one_mul, Matrix.mul_one]
    funext i k
    fin_cases i <;> fin_cases k <;>
      simp [Matrix.diagonal, Matrix.one_apply] <;> norm_num
  · norm_num
  · rw [applyStrainFloat, if_pos (np_allclose_of_eq (Matrix.diagonal_transpose _).symm)]
    rfl

/-- C5 amended: apply_strain performs no positive-definiteness check:
for every symmetric strain and every eigendecomposition output
containing a negative eigenvalue, the call completes without raising
(no error is reported) and every entry of the returned box is NaN,
because np.sqrt of the negative eigenvalue is NaN and NaN propagates
through the matrix products. -/
theorem apply_strain_negative_eigenvalue_silent_nan
    (s box0 V : Mat3) (lam : Fin 3 → ℝ)
    (hsym : s = sᵀ) (j : Fin 3) (hneg : lam j < 0) :
    applyStrainFloat s box0 V lam =
        .ok (fmatMul (toF box0) (fmatMul (fmatMul (toF V) (sqrtDiagF lam)) (toF Vᵀ))) ∧
      ∀ i k, fmatMul (toF box0)
          (fmatMul (fmatMul (toF V) (sqrtDiagF lam)) (toF Vᵀ)) i k = none := by
  have hD : sqrtDiagF lam j j = none := by
    rw [sqrtDiagF, Matrix.diagonal_apply_eq, npSqrtF, if_pos hneg]
  constructor
  · rw [applyStrainFloat, if_pos (np_allclose_of_eq hsym)]
  · intro i k
    have h1 : ∀ i', fmatMul (toF V) (sqrtDiagF lam) i' j = none := fun i' =>
      fmatMul_entry_none _ _ i' j j (by rw [hD, fmul_none_right])
    have h2 : ∀ i' k', fmatMul (fmatMul (toF V) (sqrtDiagF lam)) (toF Vᵀ) i' k' =
        none := fun i' k' =>
      fmatMul_entry_none _ _ i' k' j (by rw [h1 i', fmul_none_left])
    exact fmatMul_entry_none _ _ i k 0 (by rw [h2 0 k, fmul_none_right])

/-- Witness for the amended C5 at strain diag(-1,0,0),
eigendecomposition (I, (-1,1,1)), reference box I. -/
theorem apply_strain_negative_eigenvalue_silent_nan_witness :
    applyStrainFloat (Matrix.diagonal ![(-1 : ℝ), 0, 0]) 1 1 ![(-1 : ℝ), 1, 1] =
        .ok (fmatMul (toF 1)
          (fmatMul (fmatMul (toF 1) (sqrtDiagF ![(-1 : ℝ), 1, 1])) (toF (1 : Mat3)ᵀ))) ∧
      ∀ i k, fmatMul (toF 1)
          (fmatMul (fmatMul (toF 1) (sqrtDiagF ![(-1 : ℝ), 1, 1])) (toF (1 : Mat3)ᵀ)) i k =
        none := by
  have h := apply_strain_negative_eigenvalue_silent_nan
    (Matrix.diagonal ![(-1 : ℝ), 0, 0]) 1 1 ![(-1 : ℝ), 1, 1]
    (Matrix.diagonal_transpose _).symm 0 (by norm_num)
  exact h

/-! ## Safety-checked force field (utils.py lines 89-111)

`ForceField._internal_compute(gpos, vtens)` sums
`part.compute(gpos, vtens)` over `self.parts` (each yaff force part
adds its gradient/virial contribution into the shared buffers and
returns its energy), converts the accumulated gradient buffer to
physical forces with
`forces = (-1.0) / molmod.units.electronvolt * molmod.units.angstrom * gpos`,
and calls `check_threshold`.  When `gpos` is None, that conversion
line multiplies a float by None, which raises a TypeError.  The
`needs_nlist_update` branch only refreshes the external neighbour
list, a side effect on state outside this module that does not change
the returned value, and is not represented.  A force part is modelled
by its returned energy and the contributions it adds to the buffers;
parts never raise in this model. -/

/-- An n-by-3 gradient or force buffer. -/
abbrev GVec (n : ℕ) := Fin n → Fin 3 → ℝ

/-- One yaff force part, modelled by its observable effect in a single
evaluation: the energy it returns and the contributions that its
`compute` adds into the shared gradient and virial buffers. -/
structure YaffForcePart (n : ℕ) where
  energy : ℝ
  gposContrib : GVec n
  vtensContrib : Mat3

/-- Gradient buffer contents after every part has accumulated its
contribution into the buffer (in registration order). -/
def accumGpos {n : ℕ} (parts : List (YaffForcePart n)) (g0 : GVec n) : GVec n :=
  fun i k => g0 i k + (parts.map (fun p => p.gposContrib i k)).sum

/-- `np.linalg.norm(forces, axis=1)`: Euclidean norm of row i. -/
noncomputable def rowNorm {n : ℕ} (f : GVec n) (i : Fin n) : ℝ :=
  Real.sqrt (∑ k, (f i k) ^ 2)

/-- `np.max` over a nonempty vector of reals. -/
noncomputable def npMax {n : ℕ} [NeZero n] (v : Fin n → ℝ) : ℝ :=
  Finset.univ.sup' ⟨⟨0, Nat.pos_of_ne_zero (NeZero.ne n)⟩, Finset.mem_univ _⟩ v

/-- `np.argmax` over a nonempty vector of reals: the first index at
which the maximum is attained. -/
noncomputable def npArgmax {n : ℕ} [NeZero n] (v : Fin n → ℝ) : Fin n :=
  letI : DecidableEq ℝ := Classical.decEq ℝ
  (Finset.univ.filter (fun i => v i = npMax v)).min'
    (by
      obtain ⟨i, _, hi⟩ := Finset.exists_mem_eq_sup'
        (⟨⟨0, Nat.pos_of_ne_zero (NeZero.ne n)⟩, Finset.mem_univ _⟩ :
          (Finset.univ : Finset (Fin n)).Nonempty) v
      exact ⟨i, Finset.mem_filter.mpr ⟨Finset.mem_univ _, hi.symm⟩⟩)

/-- np.argmax returns an index attaining the maximum. -/
theorem npArgmax_attains {n : ℕ} [NeZero n] (v : Fin n → ℝ) :
    v (npArgmax v) = npMax v := by
  letI : DecidableEq ℝ := Classical.decEq ℝ
  have hmem := Finset.min'_mem
    (Finset.univ.filter (fun i => v i = npMax v))
    (by
      obtain ⟨i, _, hi⟩ := Finset.exists_mem_eq_sup'
        (⟨⟨0, Nat.pos_of_ne_zero (NeZero.ne n)⟩, Finset.mem_univ _⟩ :
          (Finset.univ : Finset (Fin n)).Nonempty) v
      exact ⟨i, Finset.mem_filter.mpr ⟨Finset.mem_univ _, hi.symm⟩⟩)
  exact (Finset.mem_filter.mp hmem).2

/-- `npMax` of a constant vector. -/
theorem npMax_const {n : ℕ} [NeZero n] (c : ℝ) :
    npMax (n := n) (fun _ => c) = c :=
  Finset.sup'_const _ c

/-- The outcome of ForceField._internal_compute when it does not
return normally. -/
inductive ComputeError (n : ℕ)
  /-- TypeError from `float * None` when the gradient buffer is
  absent. -/
  | typeError
  /-- ForceThresholdExceededException; the exception message is
  formatted from the maximum force and the offending atom index, which
  are carried here as structured data. -/
  | thresholdExceeded (max_force : ℝ) (index : Fin n)

/-- The physical per-atom forces computed on utils.py line 101:
`(-1.0) / molmod.units.electronvolt * molmod.units.angstrom * gpos`
applied to the accumulated gradient buffer, i.e. force = -gradient
converted to eV/A units. -/
noncomputable def physicalForces {n : ℕ} (parts : List (YaffForcePart n))
    (g : GVec n) : GVec n :=
  fun i k => (-1.0) / electronvolt * angstrom * accumGpos parts g i k

/-- ForceField.check_threshold (utils.py 105-111): raises
ForceThresholdExceededException carrying (max_force, index) when
`max_force > self.force_threshold`. -/
noncomputable def check_threshold {n : ℕ} [NeZero n] (force_threshold : ℝ)
    (forces : GVec n) : Option (ComputeError n) :=
  let max_force := npMax (rowNorm forces)
  let index := npArgmax (rowNorm forces)
  if force_threshold < max_force then
    some (.thresholdExceeded max_force index)
  else
    none

/-- ForceField._internal_compute (utils.py 96-103). -/
noncomputable def ff_internal_compute {n : ℕ} [NeZero n]
    (parts : List (YaffForcePart n)) (force_threshold : ℝ)
    (gpos : Option (GVec n)) (vtens : Option Mat3) :
    Except (ComputeError n) ℝ :=
  let result := (parts.map (fun p => p.energy)).sum
  match gpos with
  | none => .error .typeError
  | some g =>
    match check_threshold force_threshold (physicalForces parts g) with
    | some e => .error e
    | none => .ok result

/-- C1: with a non-null gradient buffer, ForceField._internal_compute
raises precisely when the maximum over atoms of the Euclidean norm of
the physical forces (force = -gradient converted to eV/A) exceeds the
threshold; the raised condition carries that maximum and the offending
atom index (an index attaining the maximum); otherwise the call
returns the sum of the energies of the owned parts in registration
order. -/
theorem ff_internal_compute_threshold {n : ℕ} [NeZero n]
    (parts : List (YaffForcePart n)) (T : ℝ) (g : GVec n) (vt : Option Mat3) :
    ((∃ e, ff_internal_compute parts T (some g) vt = .error e) ↔
        T < npMax (rowNorm (physicalForces parts g))) ∧
      (T < npMax (rowNorm (physicalForces parts g)) →
        ff_internal_compute parts T (some g) vt =
          .error (.thresholdExceeded
            (npMax (rowNorm (physicalForces parts g)))
            (npArgmax (rowNorm (physicalForces parts g))))) ∧
      rowNorm (physicalForces parts g)
          (npArgmax (rowNorm (physicalForces parts g))) =
        npMax (rowNorm (physicalForces parts g)) ∧
      (¬ T < npMax (rowNorm (physicalForces parts g)) →
        ff_internal_compute parts T (some g) vt =
          .ok ((parts.map (fun p => p.energy)).sum)) := by
  by_cases h : T < npMax (rowNorm (physicalForces parts g))
  · have herr : ff_internal_compute parts T (some g) vt =
        .error (.thresholdExceeded
          (npMax (rowNorm (physicalForces parts g)))
          (npArgmax (rowNorm (physicalForces parts g)))) := by
      rw [ff_internal_compute, check_threshold]
      simp only [if_pos h]
    exact ⟨⟨fun _ => h, fun _ => ⟨_, herr⟩⟩, fun _ => herr,
      npArgmax_attains _, fun hc => absurd h hc⟩
  · have hok : ff_internal_compute parts T (some g) vt =
        .ok ((parts.map (fun p => p.energy)).sum) := by
      rw [ff_internal_compute, check_threshold]
      simp only [if_neg h]
    refine ⟨⟨fun ⟨e, he⟩ => ?_, fun hc => absurd hc h⟩, fun hc => absurd hc h,
      npArgmax_attains _, fun _ => hok⟩
    rw [hok] at he
    exact Except.noConfusion he

/-- Witness for C1: one atom, one part of energy 5 with zero gradient
contribution, threshold 1: the maximum force is 0, no exception, and
the energy 5 is returned. -/
theorem ff_internal_compute_threshold_witness :
    ff_internal_compute (n := 1)
        [⟨5, fun _ _ => 0, 0⟩] 1 (some (fun _ _ => 0)) none = .ok 5 := by
  have h := (ff_internal_compute_threshold (n := 1)
    [⟨5, fun _ _ => 0, 0⟩] 1 (fun _ _ => 0) none).2.2.2
  have hzero : physicalForces (n := 1) [⟨5, fun _ _ => 0, 0⟩] (fun _ _ => 0) =
      fun _ _ => 0 := by
    funext i k
    simp [physicalForces, accumGpos]
  have hmax : npMax (rowNorm (physicalForces (n := 1)
      [⟨5, fun _ _ => 0, 0⟩] (fun _ _ => 0))) = 0 := by
    rw [hzero]
    have hrn : rowNorm (n := 1) (fun _ _ => 0) = fun _ => 0 := by
      funext i
      simp [rowNorm]
    rw [hrn, npMax_const]
  have hres := h (by rw [hmax]; norm_num)
  rw [hres]
  norm_num

/-- C6 counterexample: with the gradient buffer omitted, the call does
not return the total energy: it raises a TypeError (float times None
on utils.py line 101), for a concrete one-atom force field with a
single part of energy 5 and threshold 20. -/
theorem ff_internal_compute_none_counterexample :
    ff_internal_compute (n := 1) [⟨5, fun _ _ => 0, 0⟩] 20 none none =
      .error .typeError := by
  rw [ff_internal_compute]

/-- C6 amended: ForceField._internal_compute tolerates omission of the
virial buffer (the returned value does not depend on it at all), but
not of the gradient buffer: whenever the gradient buffer is absent the
threshold conversion multiplies None and the call raises a TypeError,
for every part list, threshold and virial argument. -/
theorem ff_internal_compute_buffer_omission {n : ℕ} [NeZero n]
    (parts : List (YaffForcePart n)) (T : ℝ) (g : GVec n)
    (vt vt1 vt2 : Option Mat3) :
    ff_internal_compute parts T none vt = .error .typeError ∧
      ff_internal_compute parts T (some g) vt1 =
        ff_internal_compute parts T (some g) vt2 := by
  constructor
  · rw [ff_internal_compute]
  · rw [ff_internal_compute, ff_internal_compute]

/-- Witness for the amended C6 on a concrete one-atom force field. -/
theorem ff_internal_compute_buffer_omission_witness :
    ff_internal_compute (n := 1) [⟨5, fun _ _ => 0, 0⟩] 20 none (some 0) =
        .error .typeError ∧
      ff_internal_compute (n := 1) [⟨5, fun _ _ => 0, 0⟩] 20
          (some (fun _ _ => 0)) (some 0) =
        ff_internal_compute (n := 1) [⟨5, fun _ _ => 0, 0⟩] 20
          (some (fun _ _ => 0)) none := by
  have h := ff_internal_compute_buffer_omission (n := 1)
    [⟨5, fun _ _ => 0, 0⟩] 20 (fun _ _ => 0) (some 0) (some 0) none
  exact h

/-! ## ForcePartASE (utils.py lines 53-86)

`ForcePartASE._internal_compute(gpos, vtens)` pushes the system
positions and cell (converted from atomic units to angstrom) into the
ASE atoms object, pulls the potential energy
(`* molmod.units.electronvolt`), and, when requested, overwrites the
buffers: `gpos[:] = -forces * electronvolt / angstrom` and
`vtens[:] = volume * stress * electronvolt` with
`stress = get_stress(voigt=False)` (the full 3x3 tensor) and
`volume = det(get_cell())`.  The external calculator is modelled as a
capability structure mapping the pushed positions and cell to energy,
forces and stress, exactly the three getters the code calls. -/

/-- The ASE calculator boundary: energy (eV), forces (eV/A) and the
full 3x3 stress tensor, as functions of the positions and cell pushed
into the atoms object (in angstrom). -/
structure ASECalculator (n : ℕ) where
  potential_energy : GVec n → Mat3 → ℝ
  forces : GVec n → Mat3 → GVec n
  stress : GVec n → Mat3 → Mat3

/-- `self.atoms.set_positions(self.system.pos / molmod.units.angstrom)`. -/
noncomputable def atomsPositions {n : ℕ} (sysPos : GVec n) : GVec n :=
  fun i k => sysPos i k / angstrom

/-- `self.atoms.set_cell(Cell(self.system.cell._get_rvecs() / molmod.units.angstrom))`. -/
noncomputable def atomsCell (sysRvecs : Mat3) : Mat3 :=
  Matrix.of fun i j => sysRvecs i j / angstrom

/-- Observable outcome of ForcePartASE._internal_compute: the returned
energy, and the final contents of each buffer when it was provided. -/
structure ASEResult (n : ℕ) where
  energy : ℝ
  gposOut : Option (GVec n)
  vtensOut : Option Mat3

/-- ForcePartASE._internal_compute (utils.py 75-86). -/
noncomputable def forcepartase_internal_compute {n : ℕ} (calculator : ASECalculator n)
    (sysPos : GVec n) (sysRvecs : Mat3)
    (gpos : Option (GVec n)) (vtens : Option Mat3) : ASEResult n :=
  let posA := atomsPositions sysPos
  let cellA := atomsCell sysRvecs
  { energy := calculator.potential_energy posA cellA * electronvolt
    gposOut := gpos.map fun _ =>
      fun i k => -(calculator.forces posA cellA i k) * electronvolt / angstrom
    vtensOut := vtens.map fun _ =>
      Matrix.of fun i j => cellA.det * calculator.stress posA cellA i j * electronvolt }

/-- C3: on every call with the virial buffer requested, that buffer is
filled with volume times the full 3x3 stress tensor, converted to
internal energy units (volume = det of the angstrom cell); with the
gradient buffer requested, it is filled with the negated forces
converted to the internal gradient convention; and the returned energy
is the calculator energy converted to internal units. -/
theorem forcepartase_fills_buffers {n : ℕ} (calculator : ASECalculator n)
    (sysPos : GVec n) (sysRvecs : Mat3) (g : GVec n) (v : Mat3) :
    (forcepartase_internal_compute calculator sysPos sysRvecs (some g) (some v)).vtensOut =
        some (Matrix.of fun i j =>
          (atomsCell sysRvecs).det *
            calculator.stress (atomsPositions sysPos) (atomsCell sysRvecs) i j *
            electronvolt) ∧
      (forcepartase_internal_compute calculator sysPos sysRvecs (some g) (some v)).gposOut =
        some (fun i k =>
          -(calculator.forces (atomsPositions sysPos) (atomsCell sysRvecs) i k) *
            electronvolt / angstrom) ∧
      (forcepartase_internal_compute calculator sysPos sysRvecs (some g) (some v)).energy =
        calculator.potential_energy (atomsPositions sysPos) (atomsCell sysRvecs) *
          electronvolt := by
  exact ⟨rfl, rfl, rfl⟩

/-- C10: the buffers are overwritten by assignment, not accumulated
into: the final contents of a provided gradient buffer are exactly
the negated converted forces, and of a provided virial buffer exactly
volume times stress, independent of the contents of the buffers before
the call. -/
theorem forcepartase_overwrites_buffers {n : ℕ} (calculator : ASECalculator n)
    (sysPos : GVec n) (sysRvecs : Mat3) (g1 g2 : GVec n) (v1 v2 : Mat3) :
    (forcepartase_internal_compute calculator sysPos sysRvecs (some g1) (some v1)).gposOut =
        (forcepartase_internal_compute calculator sysPos sysRvecs (some g2) (some v2)).gposOut ∧
      (forcepartase_internal_compute calculator sysPos sysRvecs (some g1) (some v1)).vtensOut =
        (forcepartase_internal_compute calculator sysPos sysRvecs (some g2) (some v2)).vtensOut ∧
      (forcepartase_internal_compute calculator sysPos sysRvecs (some g1) (some v1)).gposOut =
        some (fun i k =>
          -(calculator.forces (atomsPositions sysPos) (atomsCell sysRvecs) i k) *
            electronvolt / angstrom) := by
  exact ⟨rfl, rfl, rfl⟩

/-! ## ForcePartPlumed (utils.py lines 11-46)

`ForcePartPlumed._internal_compute(gpos, vtens)` pushes the step
counter, positions, masses, charges (when present) and box (when
periodic) into PLUMED; PLUMED requires non-null force and virial
arrays unconditionally, so zero-filled scratch arrays are allocated
when a buffer is absent; a provided gradient buffer is negated in
place before the call (forces and gpos differ by a minus sign),
PLUMED accumulates its bias forces and virial into the arrays during
prepareCalc/performCalcNoUpdate, and the gradient buffer is negated
back afterwards; the returned energy is read back with getBias.  The
external engine is modelled as a capability structure giving, as a
function of the pushed state, the bias energy and the increments it
adds into the force and virial arrays; getBias does not depend on the
array contents. -/

/-- The state pushed into PLUMED before the calculation. -/
structure PlumedState (n : ℕ) where
  plumedstep : ℤ
  pos : GVec n
  masses : Fin n → ℝ
  charges : Option (Fin n → ℝ)
  rvecs : Option Mat3

/-- The PLUMED engine boundary: bias energy and the force/virial
increments accumulated into the caller-supplied arrays, as functions
of the pushed state. -/
structure PlumedEngine (n : ℕ) where
  bias : PlumedState n → ℝ
  forceAdd : PlumedState n → GVec n
  virialAdd : PlumedState n → Mat3

/-- Observable outcome of ForcePartPlumed._internal_compute: the bias
energy, the final contents of each provided buffer, and the contents
of the arrays handed to setForces/setVirial at call time (the
zero-filled scratch arrays when the buffers were absent). -/
structure PlumedResult (n : ℕ) where
  energy : ℝ
  gposOut : Option (GVec n)
  vtensOut : Option Mat3
  sentForces : GVec n
  sentVirial : Mat3

/-- ForcePartPlumed._internal_compute (utils.py 14-46). -/
noncomputable def plumed_internal_compute {n : ℕ} (eng : PlumedEngine n)
    (st : PlumedState n) (gpos : Option (GVec n)) (vtens : Option Mat3) :
    PlumedResult n :=
  let my_gpos : GVec n :=
    match gpos with
    | none => fun _ _ => 0
    | some g => fun i k => g i k * (-1.0)
  let my_vtens : Mat3 :=
    match vtens with
    | none => 0
    | some v => v
  let gAfter : GVec n := fun i k => my_gpos i k + eng.forceAdd st i k
  let vAfter : Mat3 := my_vtens + eng.virialAdd st
  { energy := eng.bias st
    gposOut := gpos.map fun _ => fun i k => gAfter i k * (-1.0)
    vtensOut := vtens.map fun _ => vAfter
    sentForces := my_gpos
    sentVirial := my_vtens }

/-- C7: calling the PLUMED force part with both buffers omitted
succeeds, hands zero-filled scratch arrays to the external engine, and
returns the same bias energy as a call on the same state with both
buffers supplied. -/
theorem plumed_compute_null_buffers {n : ℕ} (eng : PlumedEngine n)
    (st : PlumedState n) (g : GVec n) (v : Mat3) :
    (plumed_internal_compute eng st none none).sentForces = (fun _ _ => 0) ∧
      (plumed_internal_compute eng st none none).sentVirial = 0 ∧
      (plumed_internal_compute eng st none none).energy =
        (plumed_internal_compute eng st (some g) (some v)).energy := by
  exact ⟨rfl, rfl, rfl⟩

/-! ## ExtXYZHook write schedule (utils.py lines 153-178)

`ExtXYZHook` is a yaff VerletHook constructed with `(start, step)`.
Modelled from the spec: the external yaff integrator invokes a hook at
iteration counters `start, start + step, start + 2*step, ...`, i.e. at
every counter c with `start <= c` and `(c - start) % step == 0`.
`ExtXYZHook.__call__` itself (in src) appends a frame only under
`if iterative.counter > 0` (the comment in the source reads
"first write is manual"). -/

/-- The yaff VerletHook trigger: whether the hook is invoked at
iteration counter c for schedule (start, step). -/
def expects_call (start step c : ℕ) : Bool :=
  (start ≤ c) && ((c - start) % step == 0)

/-- ExtXYZHook.__call__ appends a frame iff the counter is positive
(utils.py 174-178). -/
def extxyz_writes (c : ℕ) : Bool := 0 < c

/-- The iteration counters in 0..N at which the hook is invoked. -/
def scheduledCounters (start step N : ℕ) : List ℕ :=
  (List.range (N + 1)).filter (fun c => expects_call start step c)

/-- The iteration counters in 0..N at which the hook appends a frame
to the file. -/
def writtenCounters (start step N : ℕ) : List ℕ :=
  (List.range (N + 1)).filter (fun c => expects_call start step c && extxyz_writes c)

/-- C8 counterexample: for the schedule start=1, step=1 over counters
0..2, the scheduled calls are at counters 1 and 2 and the hook writes
on both, so the first scheduled call (counter 1) is NOT skipped. -/
theorem extxyz_first_scheduled_call_writes_counterexample :
    scheduledCounters 1 1 2 = [1, 2] ∧ writtenCounters 1 1 2 = [1, 2] := by
  constructor <;> rfl

/-- C8 amended: a scheduled call appends a frame exactly when its
iteration counter is positive; the first scheduled call happens at
counter = start, so it is skipped precisely when start = 0 (the
"first write is manual" convention), and every later scheduled call
writes. -/
theorem extxyz_write_schedule (start step N : ℕ)
    (hstep : 1 ≤ step) (hstart : start ≤ N) :
    start ∈ scheduledCounters start step N ∧
      (∀ c ∈ scheduledCounters start step N, start ≤ c) ∧
      (∀ c, c ∈ writtenCounters start step N ↔
        c ∈ scheduledCounters start step N ∧ 0 < c) := by
  refine ⟨?_, ?_, ?_⟩
  · simp only [scheduledCounters, List.mem_filter, List.mem_range]
    constructor
    · omega
    · simp [expects_call]
  · intro c hc
    simp only [scheduledCounters, List.mem_filter, List.mem_range, expects_call,
      Bool.and_eq_true, decide_eq_true_eq] at hc
    exact hc.2.1
  · intro c
    simp only [writtenCounters, scheduledCounters, List.mem_filter, List.mem_range,
      extxyz_writes, Bool.and_eq_true, decide_eq_true_eq]
    tauto

/-- Witness for the amended C8 at the schedule (start,step) = (0,2)
over counters 0..4 (the spec example: frames at 0,2,4, of which the
file variant writes 2 and 4). -/
theorem extxyz_write_schedule_witness :
    0 ∈ scheduledCounters 0 2 4 ∧
      (2 ∈ writtenCounters 0 2 4 ↔ 2 ∈ scheduledCounters 0 2 4 ∧ 0 < 2) ∧
      (0 ∈ writtenCounters 0 2 4 ↔ 0 ∈ scheduledCounters 0 2 4 ∧ 0 < 0) := by
  have h := extxyz_write_schedule 0 2 4 (by norm_num) (by norm_num)
  exact ⟨h.1, h.2.2 2, h.2.2 0⟩

/-! ## parse_yaff_output (utils.py lines 230-246)

The parser splits the console text on newlines, walks the lines in
reverse, and for the first line containing "VERLET" tries
`[float(s) for s in line.split()[1:]]`; a ValueError there (a
non-float token) is caught and the line skipped; otherwise it runs
`counter = int(line.split()[1])` and stops.  That `int` call is NOT
inside the try block: when the line has fewer than two tokens,
`line.split()[1]` raises an uncaught IndexError, and when the second
token is a float but not an integer literal, `int()` raises an
uncaught ValueError.  The tag is "unsafe" iff "unsafe" occurs anywhere
in the text.

String processing is modelled structurally over lists of characters.
Python `float()` and `int()` acceptance is modelled on the numeric
literal core (optional sign, digits, decimal point, exponent for
float; optional sign and digits for int); `str.split()` splits on runs
of whitespace and discards empty tokens. -/

/-- Split a character list at every occurrence of the separator
character, keeping empty pieces (Python `str.split(sep)`). -/
def splitOnChar (sep : Char) (l : List Char) : List (List Char) :=
  l.foldr
    (fun a acc =>
      if a = sep then [] :: acc
      else
        match acc with
        | [] => [[a]]
        | h :: t => (a :: h) :: t)
    [[]]

/-- Python `pat in s` substring containment. -/
def occursIn (pat : List Char) : List Char → Bool
  | [] => pat.isEmpty
  | a :: rest => pat.isPrefixOf (a :: rest) || occursIn pat rest

/-- Python `str.split()`: split on whitespace runs, dropping empty
tokens. -/
def pySplit (l : List Char) : List (List Char) :=
  (l.foldr
    (fun a acc =>
      if a.isWhitespace then [] :: acc
      else
        match acc with
        | [] => [[a]]
        | h :: t => (a :: h) :: t)
    [[]]).filter (fun t => !t.isEmpty)

/-- A nonempty all-digit token. -/
def isDigits (l : List Char) : Bool := !l.isEmpty && l.all (fun c => c.isDigit)

/-- Strip one leading sign character. -/
def dropSign : List Char → List Char
  | '+' :: r => r
  | '-' :: r => r
  | r => r

/-- The mantissa of a float literal: digits with at most one decimal
point and at least one digit. -/
def mantissaOk (l : List Char) : Bool :=
  match splitOnChar '.' l with
  | [a] => isDigits a
  | [a, b] =>
    !(a.isEmpty && b.isEmpty) && a.all (fun c => c.isDigit) &&
      b.all (fun c => c.isDigit)
  | _ => false

/-- Python `float(s)` acceptance, modelled on the numeric literal
core: optional sign, mantissa, optional e/E exponent with optional
sign and digits. -/
def pyFloatOk (l : List Char) : Bool :=
  match splitOnChar 'e' ((dropSign l).map Char.toLower) with
  | [m] => mantissaOk m
  | [m, ex] => mantissaOk m && isDigits (dropSign ex)
  | _ => false

/-- Digit characters to the natural number they spell. -/
def digitsToNat (l : List Char) : ℕ :=
  l.foldl (fun acc c => 10 * acc + (c.toNat - '0'.toNat)) 0

/-- Python `int(s)`: integer literal (optional sign, digits); returns
none (raising ValueError at the caller) on anything else, including
float literals such as "12.5". -/
def pyInt (l : List Char) : Option ℤ :=
  if isDigits (dropSign l) then
    match l with
    | '-' :: r => some (-(digitsToNat r : ℤ))
    | '+' :: r => some ((digitsToNat r : ℤ))
    | r => some ((digitsToNat r : ℤ))
  else
    none

/-- The reverse scan of parse_yaff_output (utils.py 232-241), over the
already-reversed line list: the first line containing "VERLET" whose
tokens after the first all parse as floats determines the counter via
`int(line.split()[1])`, which raises IndexError when there is no
second token and ValueError when the second token is not an integer
literal; lines whose float parse fails are skipped; if no line
matches, the counter stays 0. -/
def verletScan : List (List Char) → Except PyExc ℤ
  | [] => .ok 0
  | line :: rest =>
    if occursIn ("VERLET".toList) line then
      let toks := pySplit line
      if ((toks.drop 1).all fun t => pyFloatOk t) then
        match toks.drop 1 with
        | [] => .error .indexError
        | t :: _ =>
          match pyInt t with
          | none => .error .valueError
          | some k => .ok k
      else
        verletScan rest
    else
      verletScan rest

/-- parse_yaff_output (utils.py 230-246). -/
def parse_yaff_output (stdout : String) : Except PyExc (String × ℤ) :=
  match verletScan ((splitOnChar '\n' stdout.toList).reverse) with
  | .error e => .error e
  | .ok counter =>
    .ok ((if occursIn ("unsafe".toList) stdout.toList then "unsafe" else "safe"),
      counter)

/-- C4: at the failing input consisting of the single line "VERLET"
(the step-marker keyword with no tokens after it), the parser raises
an uncaught IndexError from `line.split()[1]` instead of skipping the
malformed line and returning ("safe", 0). -/
theorem parse_yaff_output_indexerror_on_bare_marker :
    parse_yaff_output "VERLET" = .error .indexError := by
  rfl

/-- Sanity check of the intended behaviour on well-formed input (the
spec example): the last VERLET line with numeric tokens yields the
counter, and the unsafe keyword sets the tag. -/
theorem parse_yaff_output_spec_example :
    parse_yaff_output "VERLET 120 3.0 1e-2\nunsafe configuration" =
      .ok ("unsafe", 120) := by
  rfl

/-- Sanity check: with no VERLET line the counter defaults to 0 and
the tag is safe. -/
theorem parse_yaff_output_no_marker :
    parse_yaff_output "hello\nworld" = .ok ("safe", 0) := by
  rfl

end PsiflowUtils
